import Mathlib

/-!
ANT packet codec (weighscale/antpacket.go)

A shallow embedding of the packet builder, the checksum engine, the binary
encoder, the binary decoder and the formatter of `antpacket.go`, followed by
theorems about them.

Modelling conventions

* A Go `byte` is a natural number; the only arithmetic the code performs on
  bytes is XOR, which never leaves the byte range, so no reduction modulo 256
  is needed.  Concrete inputs used below are always below 256.
* A Go `[]byte` held in a packet or passed to the decoder is a `List Nat`: the
  code only ever takes its length, ranges over it and indexes it, so a nil
  slice and an empty slice are not distinguished there.  The variadic `args`
  of `GenerateAntpacket` is compared against `nil`, so it is an
  `Option (List Nat)` with `none` standing for the nil slice (of length 0).
* The package-level table `msgClasses` and the sentinel errors `Err...` are
  declared outside `antpacket.go`.  The table is a parameter of every function
  that consults it; the sentinels are the constructors of `AntError`, taken to
  be pairwise distinct values.
* The pieces of the Go standard library that the code calls (`bytes.Reader`,
  `bytes.Buffer`, `binary.Write` on a byte and on a byte slice, the `fmt`
  functions used by `String`) are modelled after their documented behaviour.
* A run-time panic (slice index out of range) is the result
  `.error .PanicIndexOutOfRange`.
-/

namespace Weighscale

/-- Constant `maxDataLength` of the source. -/
def maxDataLength : Nat := 56

/-- Constant `syncByte` of the source. -/
def syncByte : Nat := 0xA4

/-- Error values that the functions of `antpacket.go` can return.  The first
five are the package sentinels, `EOF` is `io.EOF` as returned by
`bytes.Reader`, and `PanicIndexOutOfRange` stands for the run-time panic of an
out-of-range slice index (it is not an error value of the program; it makes the
absence of that panic a provable fact). -/
inductive AntError where
  | ErrArgumentsNil
  | ErrUnknownClass
  | ErrArgumentsLen
  | ErrMinimumPacketLength
  | ErrChecksumMismatch
  | EOF
  | PanicIndexOutOfRange
deriving DecidableEq, Repr

deriving instance DecidableEq for Except

/-- Source type `antpacketTemplate`. -/
structure antpacketTemplate where
  datalength : Nat
  id : Nat
deriving DecidableEq, Repr

/-- Value type of the table `msgClasses`.  The declaration is outside
`antpacket.go`; the fields are the ones the file reads: `v.template`,
`c.name`, `c.class` (here `cls`) and `c.dataFieldDesc`. -/
structure msgClass where
  template : antpacketTemplate
  name : String
  cls : Nat
  dataFieldDesc : List String
deriving DecidableEq, Repr

/-- The table `msgClasses`, a Go map keyed by the class byte: `none` is a
missing key (`ok == false`). -/
abbrev Registry := Nat → Option msgClass

/-- Source type `antpacket`. -/
structure antpacket where
  sync : Nat
  msglen : Nat
  id : Nat
  data : List Nat
  checksum : Nat
deriving DecidableEq, Repr

/-- Method `genChecksum`: `chk = a.sync ^ a.msglen ^ a.id`, then
`chk = chk ^ e` for every `e` of `a.data` in order. -/
def genChecksum (a : antpacket) : Nat :=
  a.data.foldl (fun chk e => chk ^^^ e) (a.sync ^^^ a.msglen ^^^ a.id)

/-- Method `setChecksum`: `a.checksum = a.genChecksum()`. -/
def setChecksum (a : antpacket) : antpacket :=
  { a with checksum := genChecksum a }

/-- Method `validateChecksum`. -/
def validateChecksum (a : antpacket) : Bool :=
  if genChecksum a = a.checksum then true else false

/-- The loop `for i, x := range args { pkt.data[i] = x }` of
`GenerateAntpacket`, started at index `i`; `none` is the index-out-of-range
panic of the assignment. -/
def assignArgs : List Nat → Nat → List Nat → Option (List Nat)
  | data, _, [] => some data
  | data, i, x :: rest =>
    if i < data.length then assignArgs (data.set i x) (i + 1) rest else none

/-- Function `GenerateAntpacket(class byte, args ...byte)`. -/
def GenerateAntpacket (msgClasses : Registry) (cls : Nat) (args : Option (List Nat)) :
    Except AntError antpacket :=
  match args with
  | none => .error .ErrArgumentsNil
  | some xs =>
    match msgClasses cls with
    | none => .error .ErrUnknownClass
    | some v =>
      if xs.length ≠ v.template.datalength then .error .ErrArgumentsLen
      else
        let pkt : antpacket :=
          { sync := syncByte
            msglen := v.template.datalength
            id := v.template.id
            data := List.replicate v.template.datalength 0
            checksum := 0 }
        match assignArgs pkt.data 0 xs with
        | none => .error .PanicIndexOutOfRange
        | some d => .ok (setChecksum { pkt with data := d })

/-- Go built-in `len` on the variadic `args`: the nil slice has length 0. -/
def argsLen : Option (List Nat) → Nat
  | none => 0
  | some xs => xs.length

/-- The unread content of a `bytes.Buffer`. -/
abbrev Buffer := List Nat

/-- `binary.Write(buffer, order, x)` for a single byte `x`: one byte is
appended. -/
def binaryWriteByte (buffer : Buffer) (x : Nat) : Buffer := buffer ++ [x]

/-- `binary.Write(buffer, order, xs)` for a byte slice `xs`: its bytes are
appended in order (nothing for an empty or nil slice). -/
def binaryWriteBytes (buffer : Buffer) (xs : List Nat) : Buffer := buffer ++ xs

/-- `buffer.Len()`: the number of unread bytes. -/
def Buffer.Len (buffer : Buffer) : Nat := buffer.length

/-- Method `toBinary`: the resulting buffer, the returned `length` and the
returned `err` (the named result `err` is never assigned, so it is nil). -/
def toBinary (a : antpacket) (buffer : Buffer) : Buffer × Nat × Option AntError :=
  let buffer := binaryWriteByte buffer a.sync
  let buffer := binaryWriteByte buffer a.msglen
  let buffer := binaryWriteByte buffer a.id
  let buffer := binaryWriteBytes buffer a.data
  let buffer := binaryWriteByte buffer a.checksum
  (buffer, Buffer.Len buffer, none)

/-- A `bytes.Reader`: the underlying slice `s` and the read index `i`. -/
structure Reader where
  s : List Nat
  i : Nat
deriving DecidableEq, Repr

/-- `bytes.NewReader(b)`. -/
def NewReader (b : List Nat) : Reader := { s := b, i := 0 }

/-- `(*bytes.Reader).ReadByte`: at end of input it returns `0, io.EOF`,
otherwise the next byte, advancing the index by one. -/
def Reader.ReadByte (r : Reader) : Nat × Option AntError × Reader :=
  if h : r.i < r.s.length then (r.s[r.i], none, { r with i := r.i + 1 })
  else (0, some .EOF, r)

/-- Go built-in `copy(dst, src)`: the first `min (len dst) (len src)` elements
of `dst` are overwritten; returns the new `dst` and the count. -/
def copy (dst src : List Nat) : List Nat × Nat :=
  let n := min dst.length src.length
  (src.take n ++ dst.drop n, n)

/-- `(*bytes.Reader).Read(b)`: at end of input it returns `0, io.EOF`;
otherwise it copies as many bytes as fit and as remain, advances the index by
that count and returns a nil error.  The result is the new content of `b`, the
count, the error and the reader. -/
def Reader.Read (r : Reader) (b : List Nat) : List Nat × Nat × Option AntError × Reader :=
  if r.i ≥ r.s.length then (b, 0, some .EOF, r)
  else
    let (b, n) := copy b (r.s.drop r.i)
    (b, n, none, { r with i := r.i + n })

/-- Function `readAntpacket(buf []byte)`. -/
def readAntpacket (buf : List Nat) : Except AntError antpacket :=
  if buf.length < 5 then .error .ErrMinimumPacketLength
  else
    let stream := NewReader buf
    let (sync, _, stream) := stream.ReadByte
    let (msglen, _, stream) := stream.ReadByte
    let (id, _, stream) := stream.ReadByte
    let data := List.replicate msglen 0
    let (data, _, err, stream) := stream.Read data
    match err with
    | some e => .error e
    | none =>
      let (checksum, _, _) := stream.ReadByte
      let ret : antpacket :=
        { sync := sync, msglen := msglen, id := id, data := data, checksum := checksum }
      if genChecksum ret ≠ ret.checksum then .error .ErrChecksumMismatch
      else .ok ret

/-- Sample table entry with template `{datalength 2, id 0x10}`. -/
def entryX : msgClass :=
  { template := { datalength := 2, id := 0x10 }, name := "X", cls := 0x01,
    dataFieldDesc := ["first", "second"] }

/-- Sample table entry with template `{datalength 0, id 0x4A}`. -/
def entryReset : msgClass :=
  { template := { datalength := 0, id := 0x4A }, name := "Reset", cls := 0x02,
    dataFieldDesc := [] }

/-- Sample table: class `0x01` is `entryX`, class `0x02` is `entryReset`, no
other class is registered. -/
def sampleClasses : Registry := fun c =>
  if c = 0x01 then some entryX
  else if c = 0x02 then some entryReset
  else none

/-- The XOR of a list of bytes, folded left to right from 0. -/
def xorAll (l : List Nat) : Nat := l.foldl (fun chk e => chk ^^^ e) 0

/-- The verb `%X` of `fmt` on a byte: upper-case hexadecimal, no padding. -/
def hexUpper (b : Nat) : String :=
  String.mk ((Nat.toDigits 16 b).map Char.toUpper)

/-- The zero value of `msgClass`, which a Go map lookup `msgClasses[k]` yields
for a missing key: empty name, zero class, nil `dataFieldDesc`. -/
def zeroMsgClass : msgClass :=
  { template := { datalength := 0, id := 0 }, name := "", cls := 0, dataFieldDesc := [] }

/-- The loop `for i, x := range c.dataFieldDesc` of method `String`, started at
index `i` with the text `data` accumulated so far: each round appends
`x - <a.data[i] in hex>, `.  Reading `a.data[i]` with `i` outside the slice is
the index-out-of-range panic. -/
def describeFields (a : antpacket) : List String → Nat → String → Except AntError String
  | [], _, data => .ok data
  | x :: rest, i, data =>
    if h : i < a.data.length then
      describeFields a rest (i + 1) (data ++ x ++ " - " ++ hexUpper a.data[i] ++ ", ")
    else .error .PanicIndexOutOfRange

/-- Method `String` of `antpacket`: the entry is looked up in `msgClasses`
under the key `a.id`; `fmt.Sprint` joins the head without separators (every
other operand is a string), `fmt.Sprintln` joins head and data with a space and
ends the line.  The class value is printed in decimal. -/
def antpacket_String (msgClasses : Registry) (a : antpacket) : Except AntError String :=
  let c := (msgClasses a.id).getD zeroMsgClass
  let head := "\"" ++ c.name ++ "\" - " ++ "Class: " ++ toString c.cls ++ "\n\tData: "
  match describeFields a c.dataFieldDesc 0 "" with
  | .error e => .error e
  | .ok data => .ok (head ++ " " ++ data ++ "\n")

/-- A second sample table, in which class `0x01` has template
`{datalength 0, id 0x02}` and class `0x02` has template
`{datalength 2, id 0x10}`; each entry has as many field descriptions as its
datalength. -/
def crossClasses : Registry := fun c =>
  if c = 0x01 then
    some { template := { datalength := 0, id := 0x02 }, name := "Ping", cls := 0x01,
           dataFieldDesc := [] }
  else if c = 0x02 then
    some { template := { datalength := 2, id := 0x10 }, name := "X", cls := 0x02,
           dataFieldDesc := ["first", "second"] }
  else none

/-- A third sample table, in which every entry is stored under the key equal
to its template id and has as many field descriptions as its datalength. -/
def keyedClasses : Registry := fun c =>
  if c = 0x10 then
    some { template := { datalength := 2, id := 0x10 }, name := "X", cls := 0x10,
           dataFieldDesc := ["first", "second"] }
  else none

/-- The byte `x` with bit number `k` inverted. -/
def flipBit (x k : Nat) : Nat := x ^^^ 2 ^ k

/-- The byte sequence `b` with bit number `k` of the byte at position `j`
inverted. -/
def flipBitAt (b : List Nat) (j k : Nat) : List Nat :=
  b.set j (flipBit (b.getD j 0) k)

/-! ## Auxiliary lemmas -/

theorem foldl_xor_init (l : List Nat) (a : Nat) :
    l.foldl (fun chk e => chk ^^^ e) a = a ^^^ xorAll l := by
  unfold xorAll
  induction l generalizing a with
  | nil => simp
  | cons x xs ih =>
    simp only [List.foldl_cons]
    rw [ih (a ^^^ x), ih (0 ^^^ x), Nat.zero_xor, Nat.xor_assoc]

theorem xorAll_cons (x : Nat) (l : List Nat) : xorAll (x :: l) = x ^^^ xorAll l := by
  unfold xorAll
  simp only [List.foldl_cons, Nat.zero_xor]
  exact foldl_xor_init l x

theorem xorAll_append (l r : List Nat) : xorAll (l ++ r) = xorAll l ^^^ xorAll r := by
  unfold xorAll
  rw [List.foldl_append]
  exact foldl_xor_init r _

theorem genChecksum_eq (a : antpacket) :
    genChecksum a = a.sync ^^^ a.msglen ^^^ a.id ^^^ xorAll a.data :=
  foldl_xor_init a.data _

theorem assignArgs_append (xs pre mid post : List Nat) (h : mid.length = xs.length) :
    assignArgs (pre ++ mid ++ post) pre.length xs = some (pre ++ xs ++ post) := by
  induction xs generalizing pre mid with
  | nil =>
    have hm : mid = [] := List.length_eq_zero.mp (by simpa using h)
    simp [assignArgs, hm]
  | cons x rest ih =>
    cases mid with
    | nil => simp at h
    | cons m mid =>
      simp only [List.length_cons, Nat.add_right_cancel_iff] at h
      have hi : pre.length < (pre ++ m :: mid ++ post).length := by simp
      have hset : (pre ++ m :: mid ++ post).set pre.length x = (pre ++ [x]) ++ mid ++ post := by
        simp [List.set_append]
      have hlen : pre.length + 1 = (pre ++ [x]).length := by simp
      rw [assignArgs, if_pos hi, hset, hlen, ih (pre ++ [x]) mid h]
      simp

theorem assignArgs_replicate (xs : List Nat) (n : Nat) (h : xs.length = n) :
    assignArgs (List.replicate n 0) 0 xs = some xs := by
  have := assignArgs_append xs [] (List.replicate n 0) [] (by simp [h])
  simpa using this

/-- The builder on a registered class and a list of the template's length. -/
theorem GenerateAntpacket_ok (msgClasses : Registry) (cls : Nat) (v : msgClass)
    (xs : List Nat) (hreg : msgClasses cls = some v)
    (hlen : xs.length = v.template.datalength) :
    GenerateAntpacket msgClasses cls (some xs) =
      .ok { sync := syncByte, msglen := v.template.datalength, id := v.template.id,
            data := xs
            checksum := syncByte ^^^ v.template.datalength ^^^ v.template.id ^^^ xorAll xs } := by
  simp only [GenerateAntpacket, hreg, hlen, ne_eq, not_true_eq_false, if_false]
  rw [assignArgs_replicate xs _ hlen]
  simp [setChecksum, genChecksum_eq]

/-- The decoder on an input shorter than five bytes. -/
theorem readAntpacket_short (buf : List Nat) (h : buf.length < 5) :
    readAntpacket buf = .error .ErrMinimumPacketLength := by
  unfold readAntpacket
  rw [if_pos h]

/-- The decoder on an input of at least five bytes, split into the three
header bytes and the rest: the payload is the first `l` bytes of the rest,
padded with zeros when fewer remain, and the checksum is the byte after them,
or 0 when there is none. -/
theorem readAntpacket_cons (s l i : Nat) (rest : List Nat) (h : 2 ≤ rest.length) :
    readAntpacket (s :: l :: i :: rest) =
      if s ^^^ l ^^^ i ^^^ xorAll (rest.take l ++ List.replicate (l - rest.length) 0)
          = rest.getD l 0 then
        .ok { sync := s, msglen := l, id := i,
              data := rest.take l ++ List.replicate (l - rest.length) 0,
              checksum := rest.getD l 0 }
      else .error .ErrChecksumMismatch := by
  have h5 : ¬ ((s :: l :: i :: rest).length < 5) := by simp; omega
  unfold readAntpacket
  rw [if_neg h5]
  have hrest : rest ≠ [] := by intro h0; simp [h0] at h
  have hmin : l - min l rest.length = l - rest.length := by omega
  have htake : List.take (min l rest.length) rest = List.take l rest := by
    rw [List.take_eq_take]; simp
  simp only [NewReader, Reader.ReadByte, Reader.Read, copy, hrest, genChecksum_eq]
  simp [hrest, hmin, htake]
  by_cases hl : l < rest.length
  · have hm : min l rest.length = l := Nat.min_eq_left (Nat.le_of_lt hl)
    have h3 : 3 + l < rest.length + 1 + 1 + 1 := by omega
    have hget : (s :: l :: i :: rest)[3 + l] = rest[l] := by
      simp [Nat.add_comm 3 l]
    simp [hm, h3, hget, List.getElem?_eq_getElem hl]
  · have hm : min l rest.length = rest.length := Nat.min_eq_right (Nat.le_of_not_lt hl)
    have h3 : ¬ (3 + rest.length < rest.length + 1 + 1 + 1) := by omega
    simp [hm, h3, List.getElem?_eq_none (Nat.le_of_not_lt hl)]

/-! ## Builder, encoder and decoder: round trip and postconditions -/

/-- C1 (as stated, refuted): in the sample table class `0x02` is registered
with datalength 0; the builder succeeds on the non-nil empty argument list, the
encoder yields the four bytes `A4 00 4A EE`, and the decoder rejects them with
`ErrMinimumPacketLength` instead of returning the packet. -/
theorem roundtrip_empty_payload_rejected :
    (sampleClasses 0x02).map (fun v => v.template) = some { datalength := 0, id := 0x4A } ∧
    GenerateAntpacket sampleClasses 0x02 (some []) =
      .ok { sync := 0xA4, msglen := 0, id := 0x4A, data := [], checksum := 0xEE } ∧
    toBinary { sync := 0xA4, msglen := 0, id := 0x4A, data := [], checksum := 0xEE } [] =
      ([0xA4, 0, 0x4A, 0xEE], 4, none) ∧
    readAntpacket [0xA4, 0, 0x4A, 0xEE] = .error .ErrMinimumPacketLength := by
  decide

/-- C1 (amended): for every table, every class registered in it whose template
datalength is at least 1 and every non-nil argument list of that length, the
builder succeeds with a packet `p`, the encoder on an empty buffer yields bytes
`b` with a nil error, and the decoder on `b` succeeds with a packet whose sync,
msglen, id, data and checksum equal those of `p`. -/
theorem roundtrip_nonempty_payload (msgClasses : Registry) (cls : Nat) (v : msgClass)
    (args : List Nat) (hreg : msgClasses cls = some v)
    (hlen : args.length = v.template.datalength) (hpos : 1 ≤ v.template.datalength) :
    ∃ p b q, GenerateAntpacket msgClasses cls (some args) = .ok p ∧
      (toBinary p []).1 = b ∧ (toBinary p []).2.2 = none ∧
      readAntpacket b = .ok q ∧
      q.sync = p.sync ∧ q.msglen = p.msglen ∧ q.id = p.id ∧ q.data = p.data ∧
      q.checksum = p.checksum := by
  refine ⟨_, _,
    { sync := syncByte, msglen := v.template.datalength, id := v.template.id, data := args,
      checksum := syncByte ^^^ v.template.datalength ^^^ v.template.id ^^^ xorAll args },
    GenerateAntpacket_ok msgClasses cls v args hreg hlen, rfl, rfl, ?_, rfl, rfl, rfl, rfl, rfl⟩
  have h2 : 2 ≤ (args ++ [syncByte ^^^ v.template.datalength ^^^ v.template.id ^^^
      xorAll args]).length := by simp; omega
  have hb : ∀ a : antpacket, (toBinary a []).1 = a.sync :: a.msglen :: a.id ::
      (a.data ++ [a.checksum]) := by
    intro a; simp [toBinary, binaryWriteByte, binaryWriteBytes]
  rw [hb, readAntpacket_cons _ _ _ _ h2]
  have ht : List.take v.template.datalength (args ++ [syncByte ^^^ v.template.datalength ^^^
      v.template.id ^^^ xorAll args]) = args := by
    rw [← hlen]; simp
  have hg : (args ++ [syncByte ^^^ v.template.datalength ^^^ v.template.id ^^^
      xorAll args]).getD v.template.datalength 0 =
      syncByte ^^^ v.template.datalength ^^^ v.template.id ^^^ xorAll args := by
    rw [← hlen]; simp
  have hz : v.template.datalength - (args ++ [syncByte ^^^ v.template.datalength ^^^
      v.template.id ^^^ xorAll args]).length = 0 := by simp; omega
  simp only [ht, hg, hz, List.replicate_zero, List.append_nil, if_true]

/-- Witness of C1 (amended): class `0x01` of the sample table with arguments
`01 02`. -/
theorem roundtrip_nonempty_payload_witness :
    (1 ≤ 2 ∧ [1, 2].length = 2) ∧
    ∃ p b q, GenerateAntpacket sampleClasses 0x01 (some [1, 2]) = .ok p ∧
      (toBinary p []).1 = b ∧ (toBinary p []).2.2 = none ∧
      readAntpacket b = .ok q ∧
      q.sync = p.sync ∧ q.msglen = p.msglen ∧ q.id = p.id ∧ q.data = p.data ∧
      q.checksum = p.checksum :=
  ⟨by decide, roundtrip_nonempty_payload sampleClasses 0x01
    entryX [1, 2] rfl rfl (by decide)⟩

/-- C2: for every registered class with template `{datalength, id}` and every
non-nil `args` with `len(args) = datalength`, the builder returns, with a nil
error, a packet with sync `0xA4`, msglen `datalength`, id the template id and
data equal to `args` (same length, same bytes, same order). -/
theorem GenerateAntpacket_postcondition (msgClasses : Registry) (cls : Nat) (v : msgClass)
    (args : List Nat) (hreg : msgClasses cls = some v)
    (hlen : args.length = v.template.datalength) :
    ∃ p, GenerateAntpacket msgClasses cls (some args) = .ok p ∧
      p.sync = 0xA4 ∧ p.msglen = v.template.datalength ∧ p.id = v.template.id ∧
      p.data = args := by
  exact ⟨_, GenerateAntpacket_ok msgClasses cls v args hreg hlen, rfl, rfl, rfl, rfl⟩

/-- Witness of C2: class `0x01` of the sample table with arguments `01 02`. -/
theorem GenerateAntpacket_postcondition_witness :
    [1, 2].length = 2 ∧
    ∃ p, GenerateAntpacket sampleClasses 0x01 (some [1, 2]) = .ok p ∧
      p.sync = 0xA4 ∧ p.msglen = 2 ∧ p.id = 0x10 ∧ p.data = [1, 2] :=
  ⟨rfl, GenerateAntpacket_postcondition sampleClasses 0x01
    entryX [1, 2] rfl rfl⟩

/-- C3: every packet returned successfully by the builder, and every packet
returned successfully by the decoder on any input, has `len(data) = msglen` and
`checksum = sync XOR msglen XOR id XOR (XOR of the data bytes)`, so that
`validateChecksum` returns true on it. -/
theorem checksum_invariant_of_produced (msgClasses : Registry) (cls : Nat)
    (args : Option (List Nat)) (buf : List Nat) (p : antpacket) :
    (GenerateAntpacket msgClasses cls args = .ok p →
      p.data.length = p.msglen ∧
      p.checksum = p.sync ^^^ p.msglen ^^^ p.id ^^^ xorAll p.data ∧
      validateChecksum p = true) ∧
    (readAntpacket buf = .ok p →
      p.data.length = p.msglen ∧
      p.checksum = p.sync ^^^ p.msglen ^^^ p.id ^^^ xorAll p.data ∧
      validateChecksum p = true) := by
  constructor
  · intro h
    cases args with
    | none => simp [GenerateAntpacket] at h
    | some xs =>
      cases hreg : msgClasses cls with
      | none => simp [GenerateAntpacket, hreg] at h
      | some v =>
        by_cases hlen : xs.length = v.template.datalength
        · rw [GenerateAntpacket_ok msgClasses cls v xs hreg hlen] at h
          injection h with h
          subst h
          simp [validateChecksum, genChecksum_eq, hlen]
        · simp [GenerateAntpacket, hreg, hlen] at h
  · intro h
    by_cases h5 : buf.length < 5
    · rw [readAntpacket_short buf h5] at h
      cases h
    match buf, h5 with
    | [], h5 => simp at h5
    | [_], h5 => simp at h5
    | [_, _], h5 => simp at h5
    | s :: l :: i :: rest, h5 =>
      by_cases h2 : 2 ≤ rest.length
      · rw [readAntpacket_cons s l i rest h2] at h
        split at h
        · rename_i hc
          injection h with h
          subst h
          refine ⟨?_, hc.symm, ?_⟩
          · simp; omega
          · simp [validateChecksum, genChecksum_eq, hc]
        · simp at h
      · exact absurd (by simp; omega) h5

/-- Witness of C3: the builder on class `0x01` of the sample table with
arguments `01 02`, and the decoder on the frame `A4 02 10 01 02 B5`. -/
theorem checksum_invariant_of_produced_witness :
    (GenerateAntpacket sampleClasses 0x01 (some [1, 2]) =
        .ok { sync := 0xA4, msglen := 2, id := 0x10, data := [1, 2], checksum := 0xB5 } ∧
      readAntpacket [0xA4, 2, 0x10, 1, 2, 0xB5] =
        .ok { sync := 0xA4, msglen := 2, id := 0x10, data := [1, 2], checksum := 0xB5 }) ∧
    ([1, 2].length = 2 ∧ 0xB5 = 0xA4 ^^^ 2 ^^^ 0x10 ^^^ xorAll [1, 2] ∧
      validateChecksum
        { sync := 0xA4, msglen := 2, id := 0x10, data := [1, 2], checksum := 0xB5 } = true) ∧
    ([1, 2].length = 2 ∧ 0xB5 = 0xA4 ^^^ 2 ^^^ 0x10 ^^^ xorAll [1, 2] ∧
      validateChecksum
        { sync := 0xA4, msglen := 2, id := 0x10, data := [1, 2], checksum := 0xB5 } = true) :=
  ⟨by decide,
   (checksum_invariant_of_produced sampleClasses 0x01 (some [1, 2])
      [0xA4, 2, 0x10, 1, 2, 0xB5]
      { sync := 0xA4, msglen := 2, id := 0x10, data := [1, 2], checksum := 0xB5 }).1
      (by decide),
   (checksum_invariant_of_produced sampleClasses 0x01 (some [1, 2])
      [0xA4, 2, 0x10, 1, 2, 0xB5]
      { sync := 0xA4, msglen := 2, id := 0x10, data := [1, 2], checksum := 0xB5 }).2
      (by decide)⟩

/-! ## Builder validation -/

/-- C4: the builder returns `ErrArgumentsNil` if `args` is nil, whatever the
class; otherwise `ErrUnknownClass` if the class is not in the table, whatever
the length of `args`; otherwise `ErrArgumentsLen` if `len(args)` differs from
the template datalength; it succeeds exactly when none of the three conditions
holds; and a failure is one of these three errors, returned without a packet
(in particular the loop that copies the arguments never indexes out of
range). -/
theorem GenerateAntpacket_validation (msgClasses : Registry) (cls : Nat)
    (args : Option (List Nat)) :
    (args = none →
      GenerateAntpacket msgClasses cls args = .error .ErrArgumentsNil) ∧
    (args ≠ none → msgClasses cls = none →
      GenerateAntpacket msgClasses cls args = .error .ErrUnknownClass) ∧
    (∀ v, args ≠ none → msgClasses cls = some v → argsLen args ≠ v.template.datalength →
      GenerateAntpacket msgClasses cls args = .error .ErrArgumentsLen) ∧
    ((∃ p, GenerateAntpacket msgClasses cls args = .ok p) ↔
      (args ≠ none ∧ ∃ v, msgClasses cls = some v ∧ argsLen args = v.template.datalength)) ∧
    (∀ e, GenerateAntpacket msgClasses cls args = .error e →
      e = .ErrArgumentsNil ∨ e = .ErrUnknownClass ∨ e = .ErrArgumentsLen) := by
  cases args with
  | none => simp [GenerateAntpacket]
  | some xs =>
    cases hreg : msgClasses cls with
    | none => simp [GenerateAntpacket, hreg]
    | some v =>
      by_cases hlen : xs.length = v.template.datalength
      · simp [GenerateAntpacket_ok msgClasses cls v xs hreg hlen, argsLen, hlen]
      · simp [GenerateAntpacket, hreg, hlen, argsLen]

/-- Witness of C4 on the sample table: nil arguments, an unregistered class, a
wrong length, and a successful call. -/
theorem GenerateAntpacket_validation_witness :
    GenerateAntpacket sampleClasses 0x07 none = .error .ErrArgumentsNil ∧
    GenerateAntpacket sampleClasses 0x07 (some [1, 2]) = .error .ErrUnknownClass ∧
    GenerateAntpacket sampleClasses 0x01 (some [1, 2, 3]) = .error .ErrArgumentsLen ∧
    (∃ p, GenerateAntpacket sampleClasses 0x01 (some [1, 2]) = .ok p) :=
  ⟨(GenerateAntpacket_validation sampleClasses 0x07 none).1 rfl,
   (GenerateAntpacket_validation sampleClasses 0x07 (some [1, 2])).2.1 (by simp) (by decide),
   (GenerateAntpacket_validation sampleClasses 0x01 (some [1, 2, 3])).2.2.1
     entryX (by simp) rfl (by decide),
   (GenerateAntpacket_validation sampleClasses 0x01 (some [1, 2])).2.2.2.1.mpr
     ⟨by simp, entryX, rfl, rfl⟩⟩

/-- C5 (as stated, refuted): class `0x01` of the sample table is registered
with datalength 2; called with no arguments, `args` is the nil list of length
0, which differs from 2, and the builder fails with `ErrArgumentsNil`, not with
`ErrArgumentsLen`. -/
theorem length_mismatch_nil_args_not_ErrArgumentsLen :
    (sampleClasses 0x01).map (fun v => v.template.datalength) = some 2 ∧
    argsLen none ≠ 2 ∧
    GenerateAntpacket sampleClasses 0x01 none = .error .ErrArgumentsNil ∧
    GenerateAntpacket sampleClasses 0x01 none ≠ .error .ErrArgumentsLen := by
  decide

/-- C5 (amended): for every registered class and every non-nil argument list
`args` whose length differs from the class's template datalength, the builder
fails with `ErrArgumentsLen`. -/
theorem length_mismatch_ErrArgumentsLen (msgClasses : Registry) (cls : Nat) (v : msgClass)
    (args : List Nat) (hreg : msgClasses cls = some v)
    (hlen : argsLen (some args) ≠ v.template.datalength) :
    GenerateAntpacket msgClasses cls (some args) = .error .ErrArgumentsLen := by
  simp only [argsLen] at hlen
  simp [GenerateAntpacket, hreg, hlen]

/-- Witness of C5 (amended): class `0x01` of the sample table (datalength 2)
with the three arguments `01 02 03`. -/
theorem length_mismatch_ErrArgumentsLen_witness :
    argsLen (some [1, 2, 3]) ≠ 2 ∧
    GenerateAntpacket sampleClasses 0x01 (some [1, 2, 3]) = .error .ErrArgumentsLen :=
  ⟨by decide, length_mismatch_ErrArgumentsLen sampleClasses 0x01
    entryX [1, 2, 3] rfl (by decide)⟩

/-- C6 (as stated, refuted): `0x07` is not a key of the sample table; with the
nil argument list the builder fails with `ErrArgumentsNil`, not with
`ErrUnknownClass`. -/
theorem unknown_class_nil_args_not_ErrUnknownClass :
    sampleClasses 0x07 = none ∧
    GenerateAntpacket sampleClasses 0x07 none = .error .ErrArgumentsNil ∧
    GenerateAntpacket sampleClasses 0x07 none ≠ .error .ErrUnknownClass := by
  decide

/-- C6 (amended): for every class that is not a key of the table and every
non-nil argument list, of any length, the builder fails with
`ErrUnknownClass`. -/
theorem unknown_class_ErrUnknownClass (msgClasses : Registry) (cls : Nat)
    (args : List Nat) (hreg : msgClasses cls = none) :
    GenerateAntpacket msgClasses cls (some args) = .error .ErrUnknownClass := by
  simp [GenerateAntpacket, hreg]

/-- Witness of C6 (amended): the unregistered class `0x07` with the arguments
`01 02`. -/
theorem unknown_class_ErrUnknownClass_witness :
    sampleClasses 0x07 = none ∧
    GenerateAntpacket sampleClasses 0x07 (some [1, 2]) = .error .ErrUnknownClass :=
  ⟨by decide, unknown_class_ErrUnknownClass sampleClasses 0x07 [1, 2] (by decide)⟩

/-! ## Encoder -/

/-- C7: for every packet `p`, `toBinary(p)` on an empty buffer leaves the buffer
holding exactly `[p.sync, p.msglen, p.id] ++ p.data ++ [p.checksum]`, each
field written verbatim as one byte, and returns a nil error. -/
theorem toBinary_layout (p : antpacket) :
    (toBinary p []).1 = [p.sync, p.msglen, p.id] ++ p.data ++ [p.checksum] ∧
    (toBinary p []).2.2 = none := by
  simp [toBinary, binaryWriteByte, binaryWriteBytes]

/-- C8 (as stated, refuted): the packet `A4 02 10 | 01 02 | B5` has
`len(data) = msglen = 2`; `toBinary` on an empty buffer produces a frame of 6
bytes and returns length 6, which is not `5 + 2`. -/
theorem toBinary_length_not_five_plus_msglen :
    ([1, 2] : List Nat).length = 2 ∧
    (toBinary { sync := 0xA4, msglen := 2, id := 0x10, data := [1, 2], checksum := 0xB5 }
      []).2.1 = 6 ∧
    (toBinary { sync := 0xA4, msglen := 2, id := 0x10, data := [1, 2], checksum := 0xB5 }
      []).1.length = 6 ∧
    (toBinary { sync := 0xA4, msglen := 2, id := 0x10, data := [1, 2], checksum := 0xB5 }
      []).2.1 ≠ 5 + 2 := by
  decide

/-- C8 (amended): for every packet `p` with `len(p.data) = p.msglen`,
`toBinary(p)` on an empty buffer returns length `4 + p.msglen`, and that is the
number of bytes of the frame it produced. -/
theorem toBinary_length (p : antpacket) (h : p.data.length = p.msglen) :
    (toBinary p []).2.1 = 4 + p.msglen ∧
    (toBinary p []).1.length = 4 + p.msglen := by
  simp [toBinary, binaryWriteByte, binaryWriteBytes, Buffer.Len, h]
  omega

/-- Witness of C8 (amended): the packet `A4 02 10 | 01 02 | B5`. -/
theorem toBinary_length_witness :
    ([1, 2] : List Nat).length = 2 ∧
    (toBinary { sync := 0xA4, msglen := 2, id := 0x10, data := [1, 2], checksum := 0xB5 }
      []).2.1 = 4 + 2 ∧
    (toBinary { sync := 0xA4, msglen := 2, id := 0x10, data := [1, 2], checksum := 0xB5 }
      []).1.length = 4 + 2 :=
  ⟨rfl, toBinary_length
    { sync := 0xA4, msglen := 2, id := 0x10, data := [1, 2], checksum := 0xB5 } rfl⟩

/-- C9: for every packet `p`, `genChecksum(p)` is the left-to-right XOR fold of
sync, msglen, id and every byte of data; these are the bytes that `toBinary(p)`
writes before the final checksum byte; and for a packet whose checksum was set
by `setChecksum`, the XOR of all bytes of its encoding is 0. -/
theorem genChecksum_xor_of_wire_bytes (p : antpacket) :
    genChecksum p = xorAll (p.sync :: p.msglen :: p.id :: p.data) ∧
    (toBinary p []).1 = (p.sync :: p.msglen :: p.id :: p.data) ++ [p.checksum] ∧
    genChecksum p = xorAll (toBinary p []).1.dropLast ∧
    xorAll (toBinary (setChecksum p) []).1 = 0 := by
  have hw : ∀ a : antpacket,
      (toBinary a []).1 = (a.sync :: a.msglen :: a.id :: a.data) ++ [a.checksum] := by
    intro a; simp [toBinary, binaryWriteByte, binaryWriteBytes]
  have hg : genChecksum p = xorAll (p.sync :: p.msglen :: p.id :: p.data) := by
    rw [genChecksum_eq, xorAll_cons, xorAll_cons, xorAll_cons]
    simp only [Nat.xor_assoc]
  refine ⟨hg, hw p, ?_, ?_⟩
  · rw [hw p, List.dropLast_concat]
    exact hg
  · rw [hw (setChecksum p), xorAll_append]
    have hs : setChecksum p = { p with checksum := genChecksum p } := rfl
    rw [hs]
    simp only
    rw [← hg, xorAll_cons]
    simp [xorAll]

/-! ## Decoder: minimum frame -/

/-- C10: for every byte sequence shorter than 5 bytes, the empty one included,
the decoder returns `ErrMinimumPacketLength` and no packet; and for every
5-byte input whose length byte is 0 the decoder succeeds exactly when byte 3
equals byte 0 XOR byte 2, returning a packet with msglen 0 and empty data (it
fails with `ErrChecksumMismatch` otherwise). -/
theorem readAntpacket_minimum_frame :
    (∀ buf : List Nat, buf.length < 5 →
      readAntpacket buf = .error .ErrMinimumPacketLength) ∧
    (∀ b0 b2 b3 b4 : Nat,
      (b3 = b0 ^^^ b2 →
        readAntpacket [b0, 0, b2, b3, b4] =
          .ok { sync := b0, msglen := 0, id := b2, data := [], checksum := b3 }) ∧
      (b3 ≠ b0 ^^^ b2 →
        readAntpacket [b0, 0, b2, b3, b4] = .error .ErrChecksumMismatch)) := by
  refine ⟨readAntpacket_short, ?_⟩
  intro b0 b2 b3 b4
  have h := readAntpacket_cons b0 0 b2 [b3, b4] (by simp)
  simp only [List.take_zero, List.length_cons, List.length_nil, Nat.zero_sub,
    List.replicate_zero, List.append_nil, List.getD_cons_zero] at h
  have hx : b0 ^^^ 0 ^^^ b2 ^^^ xorAll [] = b0 ^^^ b2 := by simp [xorAll]
  rw [hx] at h
  constructor
  · intro hb
    rw [h, if_pos hb.symm]
  · intro hb
    rw [h, if_neg (fun e => hb e.symm)]

/-- Witness of C10: the empty input and the 4-byte input `A4 00 4A EE` are
rejected as too short; the 5-byte zero-payload frame `A4 00 4A EE 00` is
accepted and `A4 00 4A 00 00` is rejected by the checksum test. -/
theorem readAntpacket_minimum_frame_witness :
    readAntpacket [] = .error .ErrMinimumPacketLength ∧
    readAntpacket [0xA4, 0, 0x4A, 0xEE] = .error .ErrMinimumPacketLength ∧
    readAntpacket [0xA4, 0, 0x4A, 0xEE, 0] =
      .ok { sync := 0xA4, msglen := 0, id := 0x4A, data := [], checksum := 0xEE } ∧
    readAntpacket [0xA4, 0, 0x4A, 0, 0] = .error .ErrChecksumMismatch :=
  ⟨readAntpacket_minimum_frame.1 [] (by decide),
   readAntpacket_minimum_frame.1 [0xA4, 0, 0x4A, 0xEE] (by decide),
   (readAntpacket_minimum_frame.2 0xA4 0x4A 0xEE 0).1 (by decide),
   (readAntpacket_minimum_frame.2 0xA4 0x4A 0 0).2 (by decide)⟩

/-! ## Decoder: truncated and complete frames -/

/-- The encoding of a packet into an empty buffer, as a list headed by the
three header bytes. -/
theorem toBinary_nil_eq (a : antpacket) :
    (toBinary a []).1 = a.sync :: a.msglen :: a.id :: (a.data ++ [a.checksum]) := by
  simp [toBinary, binaryWriteByte, binaryWriteBytes]

/-- C11 (the code at the failing input): the 5-byte input `A4 03 A4 01 02`
declares 3 payload bytes while only 2 bytes remain after the header
(`3 > 5 - 3`); the decoder returns a packet, with the payload padded to
`01 02 00` and checksum 0, instead of failing with a read error.  On the
truncated input `A4 09 10 01 02` it fails with `ErrChecksumMismatch`, which is
not a read error either. -/
theorem readAntpacket_truncated_payload_accepted :
    5 ≤ [0xA4, 3, 0xA4, 1, 2].length ∧ [0xA4, 3, 0xA4, 1, 2].getD 1 0 > 5 - 3 ∧
    readAntpacket [0xA4, 3, 0xA4, 1, 2] =
      .ok { sync := 0xA4, msglen := 3, id := 0xA4, data := [1, 2, 0], checksum := 0 } ∧
    readAntpacket [0xA4, 9, 0x10, 1, 2] = .error .ErrChecksumMismatch := by
  decide

/-- C12: for every input of at least 5 bytes whose length byte `L = buf[1]`
satisfies `3 + L < len(buf)`, the decoder returns `ErrChecksumMismatch` if and
only if the XOR of `buf[0..2+L]` differs from `buf[3+L]`; otherwise it returns
the packet with sync `buf[0]`, msglen `buf[1]`, id `buf[2]`, data
`buf[3..3+L)` and checksum `buf[3+L]`, whatever the sync byte is. -/
theorem readAntpacket_complete_frame (buf : List Nat) (h5 : 5 ≤ buf.length)
    (hL : 3 + buf.getD 1 0 < buf.length) :
    (readAntpacket buf = .error .ErrChecksumMismatch ↔
      xorAll (buf.take (3 + buf.getD 1 0)) ≠ buf.getD (3 + buf.getD 1 0) 0) ∧
    (xorAll (buf.take (3 + buf.getD 1 0)) = buf.getD (3 + buf.getD 1 0) 0 →
      readAntpacket buf =
        .ok { sync := buf.getD 0 0, msglen := buf.getD 1 0, id := buf.getD 2 0,
              data := (buf.drop 3).take (buf.getD 1 0),
              checksum := buf.getD (3 + buf.getD 1 0) 0 }) := by
  match buf, h5, hL with
  | s :: l :: i :: rest, h5, hL =>
    have h2 : 2 ≤ rest.length := by simp at h5; omega
    have hl : l < rest.length := by simp at hL; omega
    have hz : l - rest.length = 0 := by omega
    have hx : xorAll (List.take (3 + l) (s :: l :: i :: rest)) =
        s ^^^ l ^^^ i ^^^ xorAll (rest.take l) := by
      rw [Nat.add_comm 3 l]
      simp only [List.take_succ_cons, xorAll_cons, Nat.xor_assoc]
    have hg : (s :: l :: i :: rest).getD (3 + l) 0 = rest.getD l 0 := by
      rw [Nat.add_comm 3 l]
      simp
    simp only [List.getD_cons_zero, List.getD_cons_succ, hx, hg, List.drop_succ_cons,
      List.drop_zero]
    rw [readAntpacket_cons s l i rest h2, hz]
    simp only [List.replicate_zero, List.append_nil]
    by_cases hc : s ^^^ l ^^^ i ^^^ xorAll (rest.take l) = rest.getD l 0
    · simp [hc]
    · simp [hc]

/-- Witness of C12: the complete frame `A4 02 10 01 02 B5` followed by one
more byte. -/
theorem readAntpacket_complete_frame_witness :
    (5 ≤ [0xA4, 2, 0x10, 1, 2, 0xB5, 0xFF].length ∧
      3 + [0xA4, 2, 0x10, 1, 2, 0xB5, 0xFF].getD 1 0 < [0xA4, 2, 0x10, 1, 2, 0xB5, 0xFF].length ∧
      xorAll ([0xA4, 2, 0x10, 1, 2, 0xB5, 0xFF].take (3 + 2)) = 0xB5) ∧
    readAntpacket [0xA4, 2, 0x10, 1, 2, 0xB5, 0xFF] =
      .ok { sync := 0xA4, msglen := 2, id := 0x10, data := [1, 2], checksum := 0xB5 } ∧
    readAntpacket [0xA4, 2, 0x10, 1, 3, 0xB5, 0xFF] = .error .ErrChecksumMismatch :=
  ⟨by decide,
   (readAntpacket_complete_frame [0xA4, 2, 0x10, 1, 2, 0xB5, 0xFF] (by decide)
     (by decide)).2 (by decide),
   (readAntpacket_complete_frame [0xA4, 2, 0x10, 1, 3, 0xB5, 0xFF] (by decide)
     (by decide)).1.mpr (by decide)⟩

/-- The decoder on a frame whose length byte is the length of the payload
`D` that follows the header, with checksum byte `c` and any bytes `tail` after
it, provided the input has at least 5 bytes. -/
theorem readAntpacket_frame (s i c : Nat) (D tail : List Nat)
    (h : 1 ≤ D.length + tail.length) :
    readAntpacket (s :: D.length :: i :: (D ++ c :: tail)) =
      if s ^^^ D.length ^^^ i ^^^ xorAll D = c then
        .ok { sync := s, msglen := D.length, id := i, data := D, checksum := c }
      else .error .ErrChecksumMismatch := by
  have h2 : 2 ≤ (D ++ c :: tail).length := by simp; omega
  have hz : D.length - (D ++ c :: tail).length = 0 := by simp
  have ht : List.take D.length (D ++ c :: tail) = D := by simp
  have hg : (D ++ c :: tail).getD D.length 0 = c := by
    rw [List.getD_eq_getElem?_getD, List.getElem?_append_right (Nat.le_refl _)]
    simp
  rw [readAntpacket_cons s D.length i _ h2, hz, ht, hg]
  simp only [List.replicate_zero, List.append_nil]

theorem xor_pow_ne_self (a k : Nat) : a ^^^ 2 ^ k ≠ a := by
  intro h
  have h0 : a ^^^ 2 ^ k = a ^^^ 0 := by rw [h, Nat.xor_zero]
  have hk : 2 ^ k = 0 := Nat.xor_right_inj.mp h0
  exact absurd hk (Nat.pos_iff_ne_zero.mp (Nat.two_pow_pos k))

theorem xorAll_set (l : List Nat) (j m : Nat) (h : j < l.length) :
    xorAll (l.set j (l.getD j 0 ^^^ m)) = xorAll l ^^^ m := by
  induction l generalizing j with
  | nil => simp at h
  | cons x xs ih =>
    cases j with
    | zero =>
      simp only [List.set_cons_zero, List.getD_cons_zero, xorAll_cons]
      ac_rfl
    | succ j =>
      simp only [List.length_cons, Nat.add_lt_add_iff_right] at h
      simp only [List.set_cons_succ, List.getD_cons_succ, xorAll_cons, ih j h, Nat.xor_assoc]

theorem xorAll_replicate_zero (n : Nat) : xorAll (List.replicate n 0) = 0 := by
  induction n with
  | zero => rfl
  | succ n ih => rw [List.replicate_succ, xorAll_cons, ih]; rfl

/-! ## Single-bit corruption -/

/-- C13: `validateChecksum(p)` is true iff `p.checksum = genChecksum(p)`; and
for every packet `p` on which it is true, inverting one bit of sync, of msglen,
of id, of one data byte or of checksum (the number of data bytes unchanged)
gives a packet on which it is false. -/
theorem validateChecksum_single_bit (p : antpacket) (k : Nat) :
    (validateChecksum p = true ↔ p.checksum = genChecksum p) ∧
    (validateChecksum p = true →
      validateChecksum { p with sync := flipBit p.sync k } = false ∧
      validateChecksum { p with msglen := flipBit p.msglen k } = false ∧
      validateChecksum { p with id := flipBit p.id k } = false ∧
      (∀ j, j < p.data.length →
        validateChecksum { p with data := flipBitAt p.data j k } = false) ∧
      validateChecksum { p with checksum := flipBit p.checksum k } = false) := by
  have hv : ∀ q : antpacket, validateChecksum q = false ↔ genChecksum q ≠ q.checksum := by
    intro q; simp [validateChecksum]
  constructor
  · simp only [validateChecksum]
    constructor
    · intro h; by_contra hc; simp at h; exact hc h.symm
    · intro h; simp [h]
  · intro h
    have hc : genChecksum p = p.checksum := by
      by_contra hc; simp [validateChecksum, hc] at h
    rw [genChecksum_eq] at hc
    refine ⟨?_, ?_, ?_, ?_, ?_⟩
    · rw [hv, genChecksum_eq]
      simp only [flipBit]
      rw [← hc]
      have e : p.sync ^^^ 2 ^ k ^^^ p.msglen ^^^ p.id ^^^ xorAll p.data =
          p.sync ^^^ p.msglen ^^^ p.id ^^^ xorAll p.data ^^^ 2 ^ k := by ac_rfl
      rw [e]
      exact xor_pow_ne_self _ k
    · rw [hv, genChecksum_eq]
      simp only [flipBit]
      rw [← hc]
      have e : p.sync ^^^ (p.msglen ^^^ 2 ^ k) ^^^ p.id ^^^ xorAll p.data =
          p.sync ^^^ p.msglen ^^^ p.id ^^^ xorAll p.data ^^^ 2 ^ k := by ac_rfl
      rw [e]
      exact xor_pow_ne_self _ k
    · rw [hv, genChecksum_eq]
      simp only [flipBit]
      rw [← hc]
      have e : p.sync ^^^ p.msglen ^^^ (p.id ^^^ 2 ^ k) ^^^ xorAll p.data =
          p.sync ^^^ p.msglen ^^^ p.id ^^^ xorAll p.data ^^^ 2 ^ k := by ac_rfl
      rw [e]
      exact xor_pow_ne_self _ k
    · intro j hj
      rw [hv, genChecksum_eq]
      simp only [flipBitAt, flipBit]
      rw [xorAll_set p.data j (2 ^ k) hj, ← hc]
      have e : p.sync ^^^ p.msglen ^^^ p.id ^^^ (xorAll p.data ^^^ 2 ^ k) =
          p.sync ^^^ p.msglen ^^^ p.id ^^^ xorAll p.data ^^^ 2 ^ k := by ac_rfl
      rw [e]
      exact xor_pow_ne_self _ k
    · rw [hv, genChecksum_eq]
      simp only [flipBit]
      rw [hc]
      exact fun e => xor_pow_ne_self _ k e.symm

/-- Witness of C13: the packet `A4 02 10 | 01 02 | B5` and bit 3. -/
theorem validateChecksum_single_bit_witness :
    validateChecksum
      { sync := 0xA4, msglen := 2, id := 0x10, data := [1, 2], checksum := 0xB5 } = true ∧
    validateChecksum
      { sync := 0xAC, msglen := 2, id := 0x10, data := [1, 2], checksum := 0xB5 } = false ∧
    validateChecksum
      { sync := 0xA4, msglen := 2, id := 0x10, data := [1, 2], checksum := 0xBD } = false :=
  ⟨by decide,
   ((validateChecksum_single_bit
      { sync := 0xA4, msglen := 2, id := 0x10, data := [1, 2], checksum := 0xB5 } 3).2
      (by decide)).1,
   ((validateChecksum_single_bit
      { sync := 0xA4, msglen := 2, id := 0x10, data := [1, 2], checksum := 0xB5 } 3).2
      (by decide)).2.2.2.2⟩

/-- The decoder rejects a well-formed frame in which one bit of one byte has
been inverted, when an inversion in the length byte raises the declared
length. -/
theorem corrupted_frame_rejected (s i : Nat) (D : List Nat) (j k : Nat)
    (hj : j < 4 + D.length) (hlen : j = 1 → D.length < flipBit D.length k) :
    ∃ e, readAntpacket
      (flipBitAt (s :: D.length :: i :: (D ++ [s ^^^ D.length ^^^ i ^^^ xorAll D])) j k) =
        .error e := by
  by_cases hD : D.length = 0
  · refine ⟨_, readAntpacket_short _ ?_⟩
    simp [flipBitAt, hD]
  have h1 : 1 ≤ D.length + ([] : List Nat).length := by simp; omega
  match j, hj, hlen with
  | 0, _, _ =>
    refine ⟨.ErrChecksumMismatch, ?_⟩
    simp only [flipBitAt, flipBit, List.set_cons_zero, List.getD_cons_zero]
    rw [readAntpacket_frame _ i _ D [] h1, if_neg]
    have e : s ^^^ 2 ^ k ^^^ D.length ^^^ i ^^^ xorAll D =
        s ^^^ D.length ^^^ i ^^^ xorAll D ^^^ 2 ^ k := by ac_rfl
    rw [e]
    exact xor_pow_ne_self _ k
  | 1, _, hlen =>
    refine ⟨.ErrChecksumMismatch, ?_⟩
    have hl : D.length < D.length ^^^ 2 ^ k := hlen rfl
    simp only [flipBitAt, flipBit, List.set_cons_zero, List.set_cons_succ,
      List.getD_cons_zero, List.getD_cons_succ]
    have h2 : 2 ≤ (D ++ [s ^^^ D.length ^^^ i ^^^ xorAll D]).length := by simp; omega
    have hlen2 : (D ++ [s ^^^ D.length ^^^ i ^^^ xorAll D]).length = D.length + 1 := by simp
    have ht : List.take (D.length ^^^ 2 ^ k) (D ++ [s ^^^ D.length ^^^ i ^^^ xorAll D]) =
        D ++ [s ^^^ D.length ^^^ i ^^^ xorAll D] :=
      List.take_of_length_le (by rw [hlen2]; omega)
    have hg : (D ++ [s ^^^ D.length ^^^ i ^^^ xorAll D]).getD (D.length ^^^ 2 ^ k) 0 = 0 := by
      rw [List.getD_eq_getElem?_getD, List.getElem?_eq_none (by rw [hlen2]; omega)]
      rfl
    rw [readAntpacket_cons _ _ _ _ h2, ht, hg, if_neg]
    rw [xorAll_append, xorAll_append, xorAll_replicate_zero, xorAll_cons]
    have hx : xorAll ([] : List Nat) = 0 := rfl
    rw [hx, Nat.xor_zero, Nat.xor_zero]
    have e : s ^^^ (D.length ^^^ 2 ^ k) ^^^ i ^^^
        (xorAll D ^^^ (s ^^^ D.length ^^^ i ^^^ xorAll D)) =
        (s ^^^ D.length ^^^ i ^^^ xorAll D) ^^^ (s ^^^ D.length ^^^ i ^^^ xorAll D) ^^^
          2 ^ k := by ac_rfl
    rw [e, Nat.xor_self, Nat.zero_xor]
    exact Nat.pos_iff_ne_zero.mp (Nat.two_pow_pos k)
  | 2, _, _ =>
    refine ⟨.ErrChecksumMismatch, ?_⟩
    simp only [flipBitAt, flipBit, List.set_cons_zero, List.set_cons_succ,
      List.getD_cons_zero, List.getD_cons_succ]
    rw [readAntpacket_frame s _ _ D [] h1, if_neg]
    have e : s ^^^ D.length ^^^ (i ^^^ 2 ^ k) ^^^ xorAll D =
        s ^^^ D.length ^^^ i ^^^ xorAll D ^^^ 2 ^ k := by ac_rfl
    rw [e]
    exact xor_pow_ne_self _ k
  | n + 3, hj, _ =>
    refine ⟨.ErrChecksumMismatch, ?_⟩
    simp only [flipBitAt, flipBit, List.set_cons_succ, List.getD_cons_succ]
    by_cases hn : n < D.length
    · have hset : (D ++ [s ^^^ D.length ^^^ i ^^^ xorAll D]).set n
          ((D ++ [s ^^^ D.length ^^^ i ^^^ xorAll D]).getD n 0 ^^^ 2 ^ k) =
          D.set n (D.getD n 0 ^^^ 2 ^ k) ++ [s ^^^ D.length ^^^ i ^^^ xorAll D] := by
        rw [List.set_append, if_pos hn]
        simp [List.getD_eq_getElem?_getD, List.getElem?_append_left hn]
      have hL : D.length = (D.set n (D.getD n 0 ^^^ 2 ^ k)).length := by simp
      rw [hset]
      conv => lhs; arg 1; arg 2; arg 1; rw [hL]
      rw [readAntpacket_frame s i _ _ [] (by simpa using h1), if_neg]
      rw [xorAll_set D n _ hn, ← hL]
      have e : s ^^^ D.length ^^^ i ^^^ (xorAll D ^^^ 2 ^ k) =
          s ^^^ D.length ^^^ i ^^^ xorAll D ^^^ 2 ^ k := by ac_rfl
      rw [e]
      exact xor_pow_ne_self _ k
    · have hn2 : n = D.length := by omega
      have hset : (D ++ [s ^^^ D.length ^^^ i ^^^ xorAll D]).set n
          ((D ++ [s ^^^ D.length ^^^ i ^^^ xorAll D]).getD n 0 ^^^ 2 ^ k) =
          D ++ [s ^^^ D.length ^^^ i ^^^ xorAll D ^^^ 2 ^ k] := by
        subst hn2
        rw [List.set_append, if_neg (Nat.lt_irrefl _)]
        simp [List.getD_eq_getElem?_getD]
      rw [hset, readAntpacket_frame s i _ D [] h1, if_neg]
      exact fun e => xor_pow_ne_self _ k e.symm

/-- The decoder on a frame whose length byte `l` is smaller than the number of
payload bytes `D` that follow the header: the payload is the first `l` bytes of
`D` and the byte of index `l` of `D` is taken as the checksum. -/
theorem lowered_length_frame (s i c l : Nat) (D : List Nat) (hl : l < D.length) :
    readAntpacket (s :: l :: i :: (D ++ [c])) =
      if s ^^^ l ^^^ i ^^^ xorAll (D.take l) = D.getD l 0 then
        .ok { sync := s, msglen := l, id := i, data := D.take l, checksum := D.getD l 0 }
      else .error .ErrChecksumMismatch := by
  have h2 : 2 ≤ (D ++ [c]).length := by simp; omega
  have hz : l - (D ++ [c]).length = 0 := by simp; omega
  have ht : List.take l (D ++ [c]) = D.take l :=
    List.take_append_of_le_length (Nat.le_of_lt hl)
  have hg : (D ++ [c]).getD l 0 = D.getD l 0 := by
    rw [List.getD_eq_getElem?_getD, List.getD_eq_getElem?_getD, List.getElem?_append_left hl]
  rw [readAntpacket_cons s l i _ h2, hz, ht, hg]
  simp only [List.replicate_zero, List.append_nil]

/-- C14 (as stated, refuted): the builder on class `0x01` of the sample table
with arguments `B4 07` succeeds, the encoding is `A4 02 10 B4 07 05`, and
inverting bit 1 of the length byte (position 1) gives `A4 00 10 B4 07 05`, which
the decoder accepts as a zero-payload packet with checksum `B4`. -/
theorem single_bit_corruption_of_length_accepted :
    GenerateAntpacket sampleClasses 0x01 (some [0xB4, 7]) =
      .ok { sync := 0xA4, msglen := 2, id := 0x10, data := [0xB4, 7], checksum := 0x05 } ∧
    (toBinary { sync := 0xA4, msglen := 2, id := 0x10, data := [0xB4, 7], checksum := 0x05 }
      []).1 = [0xA4, 2, 0x10, 0xB4, 7, 0x05] ∧
    flipBitAt [0xA4, 2, 0x10, 0xB4, 7, 0x05] 1 1 = [0xA4, 0, 0x10, 0xB4, 7, 0x05] ∧
    readAntpacket (flipBitAt [0xA4, 2, 0x10, 0xB4, 7, 0x05] 1 1) =
      .ok { sync := 0xA4, msglen := 0, id := 0x10, data := [], checksum := 0xB4 } := by
  decide

/-- C14 (amended): for every table, every packet `p` returned successfully by
the builder and every byte sequence obtained from the encoding of `p` by
inverting one bit of one byte, the decoder returns an error and no packet,
except in one case: the inverted bit is in the length byte, the inversion lowers
the declared length to some `L < msglen`, and the byte at position `3 + L` of
the encoding (the data byte of index `L`) equals the XOR of sync, `L`, id and
the first `L` data bytes.  In that case, and only then, the decoder does not
return an error. -/
theorem single_bit_corruption_rejected (msgClasses : Registry) (cls : Nat)
    (args : Option (List Nat)) (p : antpacket) (j k : Nat)
    (hgen : GenerateAntpacket msgClasses cls args = .ok p)
    (hj : j < (toBinary p []).1.length) :
    (∃ e, readAntpacket (flipBitAt (toBinary p []).1 j k) = .error e) ↔
      ¬ (j = 1 ∧ flipBit p.msglen k < p.msglen ∧
          p.sync ^^^ flipBit p.msglen k ^^^ p.id ^^^
            xorAll (p.data.take (flipBit p.msglen k)) =
            p.data.getD (flipBit p.msglen k) 0) := by
  cases args with
  | none => simp [GenerateAntpacket] at hgen
  | some xs =>
    cases hreg : msgClasses cls with
    | none => simp [GenerateAntpacket, hreg] at hgen
    | some v =>
      by_cases hl : xs.length = v.template.datalength
      · rw [GenerateAntpacket_ok msgClasses cls v xs hreg hl] at hgen
        injection hgen with hgen
        subst hgen
        rw [toBinary_nil_eq] at hj ⊢
        simp only at hj ⊢
        rw [← hl] at hj ⊢
        have hj4 : j < 4 + xs.length := by simp at hj; omega
        by_cases hlow : j = 1 ∧ flipBit xs.length k < xs.length
        · obtain ⟨hj1, hlt⟩ := hlow
          subst hj1
          have hflip : flipBitAt (syncByte :: xs.length :: v.template.id ::
              (xs ++ [syncByte ^^^ xs.length ^^^ v.template.id ^^^ xorAll xs])) 1 k =
              syncByte :: flipBit xs.length k :: v.template.id ::
                (xs ++ [syncByte ^^^ xs.length ^^^ v.template.id ^^^ xorAll xs]) := by
            simp [flipBitAt]
          rw [hflip, lowered_length_frame syncByte v.template.id _ _ xs hlt]
          by_cases hc : syncByte ^^^ flipBit xs.length k ^^^ v.template.id ^^^
              xorAll (xs.take (flipBit xs.length k)) = xs.getD (flipBit xs.length k) 0
          · rw [if_pos hc]
            constructor
            · rintro ⟨e, he⟩
              cases he
            · intro hn
              exact absurd ⟨rfl, hlt, hc⟩ hn
          · rw [if_neg hc]
            constructor
            · rintro _ ⟨_, _, hc2⟩
              exact hc hc2
            · intro _
              exact ⟨_, rfl⟩
        · constructor
          · rintro _ ⟨hj1, hlt, _⟩
            exact hlow ⟨hj1, hlt⟩
          · intro _
            refine corrupted_frame_rejected syncByte v.template.id xs j k hj4 ?_
            intro hj1
            have hne : flipBit xs.length k ≠ xs.length := xor_pow_ne_self _ k
            have hnl : ¬ flipBit xs.length k < xs.length := fun h => hlow ⟨hj1, h⟩
            omega
      · simp [GenerateAntpacket, hreg, hl] at hgen

/-- Witness of C14 (amended), on the encoding `A4 02 10 01 02 B5` of the packet
built for class `0x01` of the sample table: inverting bit 0 of the payload byte
at position 4 is detected, and so is clearing bit 1 of the length byte, since
the byte at position 3 is `01` and not `A4 xor 00 xor 10`. -/
theorem single_bit_corruption_rejected_witness :
    GenerateAntpacket sampleClasses 0x01 (some [1, 2]) =
      .ok { sync := 0xA4, msglen := 2, id := 0x10, data := [1, 2], checksum := 0xB5 } ∧
    (flipBitAt (toBinary
      { sync := 0xA4, msglen := 2, id := 0x10, data := [1, 2], checksum := 0xB5 } []).1 4 0 =
      [0xA4, 2, 0x10, 1, 3, 0xB5] ∧
     ∃ e, readAntpacket (flipBitAt (toBinary
      { sync := 0xA4, msglen := 2, id := 0x10, data := [1, 2], checksum := 0xB5 } []).1 4 0) =
        .error e) ∧
    (flipBitAt (toBinary
      { sync := 0xA4, msglen := 2, id := 0x10, data := [1, 2], checksum := 0xB5 } []).1 1 1 =
      [0xA4, 0, 0x10, 1, 2, 0xB5] ∧
     ∃ e, readAntpacket (flipBitAt (toBinary
      { sync := 0xA4, msglen := 2, id := 0x10, data := [1, 2], checksum := 0xB5 } []).1 1 1) =
        .error e) :=
  ⟨by decide,
   ⟨by decide,
    (single_bit_corruption_rejected sampleClasses 0x01 (some [1, 2])
      { sync := 0xA4, msglen := 2, id := 0x10, data := [1, 2], checksum := 0xB5 } 4 0
      (by decide) (by decide)).mpr (by decide)⟩,
   ⟨by decide,
    (single_bit_corruption_rejected sampleClasses 0x01 (some [1, 2])
      { sync := 0xA4, msglen := 2, id := 0x10, data := [1, 2], checksum := 0xB5 } 1 1
      (by decide) (by decide)).mpr (by decide)⟩⟩

/-! ## Concrete scenario -/

/-- C15: with a table in which class `X` has template `{datalength 2, id 0x10}`,
the builder on `X` with arguments `01 02` returns the packet
`sync=A4, msglen=02, id=10, data=[01,02], checksum=B5`; its encoding into an
empty buffer is exactly `A4 02 10 01 02 B5`; the decoder on that sequence
returns the same packet; and the decoder on `A4 02 10 01 03 B5` fails with
`ErrChecksumMismatch`. -/
theorem concrete_scenario (msgClasses : Registry) (X : Nat) (v : msgClass)
    (hreg : msgClasses X = some v) (ht : v.template = { datalength := 2, id := 0x10 }) :
    GenerateAntpacket msgClasses X (some [0x01, 0x02]) =
      .ok { sync := 0xA4, msglen := 0x02, id := 0x10, data := [0x01, 0x02],
            checksum := 0xB5 } ∧
    (toBinary { sync := 0xA4, msglen := 0x02, id := 0x10, data := [0x01, 0x02],
                checksum := 0xB5 } []).1 = [0xA4, 0x02, 0x10, 0x01, 0x02, 0xB5] ∧
    readAntpacket [0xA4, 0x02, 0x10, 0x01, 0x02, 0xB5] =
      .ok { sync := 0xA4, msglen := 0x02, id := 0x10, data := [0x01, 0x02],
            checksum := 0xB5 } ∧
    readAntpacket [0xA4, 0x02, 0x10, 0x01, 0x03, 0xB5] = .error .ErrChecksumMismatch := by
  refine ⟨?_, by decide, by decide, by decide⟩
  have hl : [0x01, 0x02].length = v.template.datalength := by rw [ht]; rfl
  rw [GenerateAntpacket_ok msgClasses X v [0x01, 0x02] hreg hl, ht]
  decide

/-- Witness of C15: class `0x01` of the sample table. -/
theorem concrete_scenario_witness :
    sampleClasses 0x01 = some entryX ∧
    GenerateAntpacket sampleClasses 0x01 (some [0x01, 0x02]) =
      .ok { sync := 0xA4, msglen := 0x02, id := 0x10, data := [0x01, 0x02],
            checksum := 0xB5 } :=
  ⟨rfl, (concrete_scenario sampleClasses 0x01 entryX rfl rfl).1⟩

/-! ## Formatter -/

/-- The field loop of `String` does not panic when the descriptions that are
left fit in the payload from index `i` on. -/
theorem describeFields_ok (a : antpacket) (descs : List String) (i : Nat) (acc : String)
    (h : i + descs.length ≤ a.data.length) :
    ∃ text, describeFields a descs i acc = .ok text := by
  induction descs generalizing i acc with
  | nil => exact ⟨acc, rfl⟩
  | cons x rest ih =>
    simp only [List.length_cons] at h
    have hi : i < a.data.length := by omega
    simp only [describeFields, hi, dite_true]
    exact ih (i + 1) _ (by omega)

/-- C16 (as stated, refuted): in the table `crossClasses` every entry has
exactly as many field descriptions as its template datalength; the builder on
the registered class `0x01` succeeds with a packet of id `0x02` and empty data;
`String` looks up the entry under the key `0x02`, which has two descriptions,
and reads `data[0]` out of range. -/
theorem String_index_out_of_range :
    (∀ c e, crossClasses c = some e → e.dataFieldDesc.length = e.template.datalength) ∧
    GenerateAntpacket crossClasses 0x01 (some []) =
      .ok { sync := 0xA4, msglen := 0, id := 0x02, data := [], checksum := 0xA6 } ∧
    antpacket_String crossClasses
      { sync := 0xA4, msglen := 0, id := 0x02, data := [], checksum := 0xA6 } =
      .error .PanicIndexOutOfRange := by
  refine ⟨?_, by decide, by decide⟩
  intro c e h
  unfold crossClasses at h
  split at h
  · injection h with h; subst h; rfl
  · split at h
    · injection h with h; subst h; rfl
    · cases h

/-- C16 (amended): for every table in which every entry has exactly as many
field descriptions as its template datalength and is stored under the key equal
to its template id, and every packet `p` returned successfully by the builder
for a registered class, `String(p)` reads `p.data[i]` only at indices
`i < len(p.data)`: it returns its text without an index-out-of-range panic. -/
theorem String_index_safe (msgClasses : Registry) (cls : Nat) (args : Option (List Nat))
    (p : antpacket)
    (hdesc : ∀ c e, msgClasses c = some e → e.dataFieldDesc.length = e.template.datalength)
    (hkey : ∀ c e, msgClasses c = some e → e.template.id = c)
    (hgen : GenerateAntpacket msgClasses cls args = .ok p) :
    ∃ text, antpacket_String msgClasses p = .ok text := by
  cases args with
  | none => simp [GenerateAntpacket] at hgen
  | some xs =>
    cases hreg : msgClasses cls with
    | none => simp [GenerateAntpacket, hreg] at hgen
    | some v =>
      by_cases hl : xs.length = v.template.datalength
      · rw [GenerateAntpacket_ok msgClasses cls v xs hreg hl] at hgen
        injection hgen with hgen
        subst hgen
        have hid : msgClasses v.template.id = some v := by rw [hkey cls v hreg]; exact hreg
        have hfit : 0 + v.dataFieldDesc.length ≤ xs.length := by
          rw [hdesc cls v hreg, hl]; omega
        obtain ⟨text, ht⟩ := describeFields_ok
          { sync := syncByte, msglen := v.template.datalength, id := v.template.id,
            data := xs,
            checksum := syncByte ^^^ v.template.datalength ^^^ v.template.id ^^^ xorAll xs }
          v.dataFieldDesc 0 "" hfit
        simp only [antpacket_String, hid, Option.getD_some, ht]
        exact ⟨_, rfl⟩
      · simp [GenerateAntpacket, hreg, hl] at hgen

/-- Witness of C16 (amended): class `0x10` of the table `keyedClasses` with
arguments `01 AB`. -/
theorem String_index_safe_witness :
    GenerateAntpacket keyedClasses 0x10 (some [1, 0xAB]) =
      .ok { sync := 0xA4, msglen := 2, id := 0x10, data := [1, 0xAB], checksum := 0x1C } ∧
    ∃ text, antpacket_String keyedClasses
      { sync := 0xA4, msglen := 2, id := 0x10, data := [1, 0xAB], checksum := 0x1C } =
      .ok text :=
  ⟨by decide,
   String_index_safe keyedClasses 0x10 (some [1, 0xAB])
     { sync := 0xA4, msglen := 2, id := 0x10, data := [1, 0xAB], checksum := 0x1C }
     (by
       intro c e h
       unfold keyedClasses at h
       split at h
       · injection h with h; subst h; rfl
       · cases h)
     (by
       intro c e h
       unfold keyedClasses at h
       split at h
       · rename_i hc; injection h with h; subst h; exact hc.symm
       · cases h)
     (by decide)⟩

/-! ## Decoder: error set and trailing bytes -/

/-- C17: for every input, the decoder returns a packet, or
`ErrMinimumPacketLength`, or `ErrChecksumMismatch`; it returns
`ErrMinimumPacketLength` exactly when the input has fewer than 5 bytes; and when
the input has at least 5 bytes the reader stands at index 3 with at least two
unread bytes when the payload read starts, so that `Read` returns a nil error
whatever the size of the payload slice (the error branch after it is never
taken). -/
theorem readAntpacket_error_set (buf : List Nat) :
    ((∃ p, readAntpacket buf = .ok p) ∨
      readAntpacket buf = .error .ErrMinimumPacketLength ∨
      readAntpacket buf = .error .ErrChecksumMismatch) ∧
    (readAntpacket buf = .error .ErrMinimumPacketLength ↔ buf.length < 5) ∧
    (5 ≤ buf.length →
      ((NewReader buf).ReadByte.2.2.ReadByte.2.2.ReadByte.2.2).i = 3 ∧
      ((NewReader buf).ReadByte.2.2.ReadByte.2.2.ReadByte.2.2).i + 2 ≤
        ((NewReader buf).ReadByte.2.2.ReadByte.2.2.ReadByte.2.2).s.length ∧
      ∀ data : List Nat,
        (((NewReader buf).ReadByte.2.2.ReadByte.2.2.ReadByte.2.2).Read data).2.2.1 = none) := by
  by_cases h5 : buf.length < 5
  · have hs := readAntpacket_short buf h5
    refine ⟨Or.inr (Or.inl hs), ⟨fun _ => h5, fun _ => hs⟩, fun h => absurd h5 (by omega)⟩
  match buf, h5 with
  | [], h5 => simp at h5
  | [_], h5 => simp at h5
  | [_, _], h5 => simp at h5
  | s :: l :: i :: rest, h5 =>
    have h2 : 2 ≤ rest.length := by simp at h5; omega
    have hrest : rest ≠ [] := by intro h0; simp [h0] at h2
    have hr := readAntpacket_cons s l i rest h2
    refine ⟨?_, ?_, ?_⟩
    · by_cases hc : s ^^^ l ^^^ i ^^^
          xorAll (rest.take l ++ List.replicate (l - rest.length) 0) = rest.getD l 0
      · rw [if_pos hc] at hr
        exact Or.inl ⟨_, hr⟩
      · rw [if_neg hc] at hr
        exact Or.inr (Or.inr hr)
    · constructor
      · intro he
        rw [hr] at he
        split at he <;> cases he
      · intro hlt
        exact absurd hlt h5
    · intro _
      simp [NewReader, Reader.ReadByte, Reader.Read, hrest]
      omega

/-- Witness of C17: the 5-byte input `A4 03 A4 01 02`, whose length byte asks
for more payload than remains. -/
theorem readAntpacket_error_set_witness :
    5 ≤ [0xA4, 3, 0xA4, 1, 2].length ∧
    ((NewReader [0xA4, 3, 0xA4, 1, 2]).ReadByte.2.2.ReadByte.2.2.ReadByte.2.2).i = 3 ∧
    ((NewReader [0xA4, 3, 0xA4, 1, 2]).ReadByte.2.2.ReadByte.2.2.ReadByte.2.2).i + 2 ≤
      ((NewReader [0xA4, 3, 0xA4, 1, 2]).ReadByte.2.2.ReadByte.2.2.ReadByte.2.2).s.length ∧
    ∀ data : List Nat,
      (((NewReader [0xA4, 3, 0xA4, 1, 2]).ReadByte.2.2.ReadByte.2.2.ReadByte.2.2).Read
        data).2.2.1 = none :=
  ⟨by decide, (readAntpacket_error_set [0xA4, 3, 0xA4, 1, 2]).2.2 (by decide)⟩

/-- C18: for every packet `p` with `len(p.data) = p.msglen` and
`p.checksum = genChecksum(p)`, and every byte sequence `s` with
`4 + len(p.data) + len(s) >= 5`, the decoder on the encoding of `p` followed by
`s` succeeds and returns `p` (equal in sync, msglen, id, data and checksum): the
bytes after the checksum byte are ignored. -/
theorem roundtrip_with_trailing_bytes (p : antpacket) (s : List Nat)
    (hlen : p.data.length = p.msglen) (hchk : p.checksum = genChecksum p)
    (h5 : 4 + p.data.length + s.length ≥ 5) :
    readAntpacket ((toBinary p []).1 ++ s) = .ok p := by
  have hb : (toBinary p []).1 ++ s =
      p.sync :: p.data.length :: p.id :: (p.data ++ p.checksum :: s) := by
    rw [toBinary_nil_eq, hlen]; simp
  rw [hb, readAntpacket_frame p.sync p.id p.checksum p.data s (by omega)]
  rw [genChecksum_eq, ← hlen] at hchk
  rw [if_pos hchk.symm, hlen]

/-- Witness of C18: the packet `A4 02 10 | 01 02 | B5` followed by `FF 00`,
and the same packet with nothing after it. -/
theorem roundtrip_with_trailing_bytes_witness :
    ([1, 2].length = 2 ∧
      0xB5 = genChecksum
        { sync := 0xA4, msglen := 2, id := 0x10, data := [1, 2], checksum := 0xB5 }) ∧
    readAntpacket ((toBinary
      { sync := 0xA4, msglen := 2, id := 0x10, data := [1, 2], checksum := 0xB5 } []).1 ++
        [0xFF, 0]) =
      .ok { sync := 0xA4, msglen := 2, id := 0x10, data := [1, 2], checksum := 0xB5 } ∧
    readAntpacket ((toBinary
      { sync := 0xA4, msglen := 2, id := 0x10, data := [1, 2], checksum := 0xB5 } []).1 ++
        []) =
      .ok { sync := 0xA4, msglen := 2, id := 0x10, data := [1, 2], checksum := 0xB5 } :=
  ⟨by decide,
   roundtrip_with_trailing_bytes
     { sync := 0xA4, msglen := 2, id := 0x10, data := [1, 2], checksum := 0xB5 } [0xFF, 0]
     rfl (by decide) (by decide),
   roundtrip_with_trailing_bytes
     { sync := 0xA4, msglen := 2, id := 0x10, data := [1, 2], checksum := 0xB5 } []
     rfl (by decide) (by decide)⟩

/-- C19: for every packet `p` with msglen 0 and empty data, `toBinary(p)` on an
empty buffer produces exactly 4 bytes and the decoder on those 4 bytes returns
`ErrMinimumPacketLength`; this is so for every packet built by the builder for
a class whose datalength is 0 with a non-nil empty argument list, although the
checksum of that packet is valid. -/
theorem zero_payload_frame_rejected :
    (∀ p : antpacket, p.msglen = 0 → p.data = [] →
      (toBinary p []).1.length = 4 ∧
      readAntpacket (toBinary p []).1 = .error .ErrMinimumPacketLength) ∧
    (∀ (msgClasses : Registry) (cls : Nat) (v : msgClass),
      msgClasses cls = some v → v.template.datalength = 0 →
      ∃ p, GenerateAntpacket msgClasses cls (some []) = .ok p ∧
        p.msglen = 0 ∧ p.data = [] ∧ validateChecksum p = true ∧
        (toBinary p []).1.length = 4 ∧
        readAntpacket (toBinary p []).1 = .error .ErrMinimumPacketLength) := by
  have hgen : ∀ p : antpacket, p.msglen = 0 → p.data = [] →
      (toBinary p []).1.length = 4 ∧
      readAntpacket (toBinary p []).1 = .error .ErrMinimumPacketLength := by
    intro p _ hd
    have hl : (toBinary p []).1.length = 4 := by rw [toBinary_nil_eq, hd]; rfl
    exact ⟨hl, readAntpacket_short _ (by omega)⟩
  refine ⟨hgen, ?_⟩
  intro msgClasses cls v hreg hz
  have hl : ([] : List Nat).length = v.template.datalength := by rw [hz]; rfl
  refine ⟨_, GenerateAntpacket_ok msgClasses cls v [] hreg hl, hz, rfl, ?_, hgen _ hz rfl⟩
  simp [validateChecksum, genChecksum_eq]

/-- Witness of C19: the packet `A4 00 4A | | EE`, and class `0x02` of the sample
table, whose datalength is 0. -/
theorem zero_payload_frame_rejected_witness :
    ((toBinary { sync := 0xA4, msglen := 0, id := 0x4A, data := [], checksum := 0xEE }
      []).1.length = 4 ∧
      readAntpacket (toBinary
        { sync := 0xA4, msglen := 0, id := 0x4A, data := [], checksum := 0xEE } []).1 =
        .error .ErrMinimumPacketLength) ∧
    ∃ p, GenerateAntpacket sampleClasses 0x02 (some []) = .ok p ∧
      p.msglen = 0 ∧ p.data = [] ∧ validateChecksum p = true ∧
      (toBinary p []).1.length = 4 ∧
      readAntpacket (toBinary p []).1 = .error .ErrMinimumPacketLength :=
  ⟨zero_payload_frame_rejected.1
     { sync := 0xA4, msglen := 0, id := 0x4A, data := [], checksum := 0xEE } rfl rfl,
   zero_payload_frame_rejected.2 sampleClasses 0x02 entryReset rfl rfl⟩

/-- C20: for every packet `p` and every buffer whose unread content is `c`,
`toBinary(p)` leaves the buffer's content equal to
`c ++ [p.sync, p.msglen, p.id] ++ p.data ++ [p.checksum]`, with `c` unchanged as
a prefix, returns a nil error, and returns length `len(c) + 4 + len(p.data)`:
the total length of the buffer, not the number of bytes appended by the call.
The method only reads the fields of `p`. -/
theorem toBinary_appends (p : antpacket) (c : Buffer) :
    (toBinary p c).1 = c ++ [p.sync, p.msglen, p.id] ++ p.data ++ [p.checksum] ∧
    (toBinary p c).2.1 = c.length + 4 + p.data.length ∧
    (toBinary p c).2.2 = none := by
  refine ⟨?_, ?_, rfl⟩
  · simp [toBinary, binaryWriteByte, binaryWriteBytes]
  · simp [toBinary, binaryWriteByte, binaryWriteBytes, Buffer.Len]
    omega

end Weighscale
